import Mathlib

/-!
Verification development for the TKT FastAPI license server.

The definitions below are a shallow embedding of the license/activation core
of the repository: `src/security.py` (token codec) and `src/app.py` (license
store, seat/activation manager, version gate).  Datetimes are modelled as
integers (seconds), database tables as Lean lists, and the fallible HTTP
endpoints as functions into `Except ApiError`.  External libraries used by the
source (msgpack serialization, Ed25519 signatures) are modelled by concrete
executable functions with the algebraic properties the source relies on; each
such model carries a doc comment saying so.
-/

namespace TKT

/-! ## Python `int()` and string helpers (used by `_parse_semver` in src/app.py) -/

/-- ASCII whitespace accepted by Python `str.strip()` / `int()`. -/
def isPySpace (c : Char) : Bool :=
  c = ' ' || c = '\t' || c = '\n' || c = '\r' || c.toNat = 11 || c.toNat = 12

/-- Python `str.strip()` on a character list. -/
def pyStrip (s : List Char) : List Char :=
  ((s.dropWhile isPySpace).reverse.dropWhile isPySpace).reverse

/-- Digit-run evaluator for Python `int()`: consumes digits, allowing single
underscores between digits, accumulating the value; fails on anything else. -/
def digitsLoop : Nat → List Char → Option Nat
  | acc, [] => some acc
  | acc, c :: rest =>
    if c.isDigit then digitsLoop (acc * 10 + (c.toNat - 48)) rest
    else if c = '_' then
      match rest with
      | d :: rest' => if d.isDigit then digitsLoop (acc * 10 + (d.toNat - 48)) rest' else none
      | [] => none
    else none

/-- Unsigned decimal literal as accepted by Python `int()` (nonempty digits,
single underscores allowed between digits). -/
def parseUInt : List Char → Option Nat
  | [] => none
  | c :: rest => if c.isDigit then digitsLoop (c.toNat - 48) rest else none

/-- Model of Python `int(s)` on a string: strip whitespace, optional single
sign, then an unsigned decimal literal; `none` models `ValueError`. -/
def pyInt (s : List Char) : Option Int :=
  match pyStrip s with
  | '+' :: rest => (parseUInt rest).map (fun n => (n : Int))
  | '-' :: rest => (parseUInt rest).map (fun n => -(n : Int))
  | rest => (parseUInt rest).map (fun n => (n : Int))

/-- Split a character list on every occurrence of a delimiter, Python
`str.split(d)` style (the empty string yields one empty part). -/
def splitOnChar (d : Char) : List Char → List (List Char)
  | [] => [[]]
  | c :: rest =>
    if c = d then [] :: splitOnChar d rest
    else
      match splitOnChar d rest with
      | [] => [[c]]
      | p :: ps => (c :: p) :: ps

/-! ## Version gate (`_parse_semver` / `_version_lte`, src/app.py lines 165-179) -/

/-- Component `i` of a split version string: `int(parts[i])` when present and
nonempty and parseable, else `0` (the `try/except` default in the source). -/
def semComp (parts : List (List Char)) (i : Nat) : Int :=
  match parts[i]? with
  | some p => if p = [] then 0 else (pyInt p).getD 0
  | none => 0

/-- `_parse_semver` from src/app.py: empty input gives `(0,0,0)`; otherwise
strip, split on `'.'`, and convert the first three components with default 0. -/
def _parse_semver (s : String) : Int × Int × Int :=
  if s.data = [] then (0, 0, 0)
  else
    let parts := splitOnChar '.' (pyStrip s.data)
    (semComp parts 0, semComp parts 1, semComp parts 2)

/-- Boolean lexicographic comparison of triples, as Python tuple `<=`. -/
def tripleLeB : Int × Int × Int → Int × Int × Int → Bool
  | (a1, a2, a3), (b1, b2, b3) =>
    decide (a1 < b1 ∨ (a1 = b1 ∧ (a2 < b2 ∨ (a2 = b2 ∧ a3 ≤ b3))))

/-- `_version_lte` from src/app.py: `_parse_semver a <= _parse_semver b`. -/
def _version_lte (a b : String) : Bool :=
  tripleLeB (_parse_semver a) (_parse_semver b)

example : _parse_semver "1.2.3" = (1, 2, 3) := by decide
example : _parse_semver "" = (0, 0, 0) := by decide
example : _parse_semver "1.x.3" = (1, 0, 3) := by decide
example : _parse_semver " 2.10 " = (2, 10, 0) := by decide
example : _version_lte "1.2.3" "1.2.10" = true := by decide
example : _version_lte "2.0.0" "1.9.9" = false := by decide
example : _version_lte "" "1.0.0" = true := by decide

/-! ## Token codec (src/security.py)

The source serializes payload dicts with the external `msgpack` library and
signs them with Ed25519 from the external `cryptography` library.  Neither
library's code is part of this repository, so they are modelled here:

* `packb` / `unpackb` — a concrete, executable, injective serialization of
  string-keyed maps whose values are ints or strings, with
  `unpackb (packb p) = some p`, standing in for `msgpack.packb` /
  `msgpack.unpackb` (deterministic binary serialization with exact inverse).
* `mkSig` — a symbolic model of deterministic Ed25519: the keypair is one
  abstract natural number `kp` (the source's `PRIV`/`PUB_PEM` pair loaded
  together at startup); signing produces `mkSig kp body` and verification
  succeeds exactly when the signature equals `mkSig kp body`.

`b64u` / `b64u_d` are the source's base64url helpers (padding stripped on
encode, re-added on decode), implemented for real on byte lists. -/

/-- Payload values that occur in the source's token payloads. -/
inductive MVal where
  | int (i : Int)
  | str (s : String)
deriving DecidableEq, Repr

/-- A payload map, as an association list (Python dict of the source). -/
def Payload := List (String × MVal)
deriving DecidableEq, Repr

/-- Dict lookup `data[k]` / `k in data` on a payload. -/
def mget (data : Payload) (k : String) : Option MVal :=
  (List.find? (fun p => p.1 == k) data).map (fun p => p.2)

/-- Base-128 varint encoding, structurally recursive on a fuel argument;
`fuel ≥ n` always suffices because the value shrinks by a factor of 128. -/
def encNatAux : Nat → Nat → List Nat
  | 0, n => [n % 128]
  | fuel + 1, n =>
    if n < 128 then [n]
    else (n % 128 + 128) :: encNatAux fuel (n / 128)

/-- Base-128 varint encoding of a natural number (low groups first,
continuation bit 128). Every emitted byte is < 256. -/
def encNat (n : Nat) : List Nat := encNatAux n n

/-- Inverse of `encNat`, returning the decoded value and remaining bytes. -/
def decNat : List Nat → Option (Nat × List Nat)
  | [] => none
  | b :: rest =>
    if b < 128 then some (b, rest)
    else
      match decNat rest with
      | some (m, rest') => some (m * 128 + (b - 128), rest')
      | none => none

/-- Integer serialization: a sign tag byte then the magnitude. -/
def encInt (i : Int) : List Nat :=
  if i < 0 then 1 :: encNat (-i).toNat else 0 :: encNat i.toNat

/-- Inverse of `encInt`. -/
def decInt : List Nat → Option (Int × List Nat)
  | [] => none
  | t :: bs =>
    match decNat bs with
    | none => none
    | some (n, rest) =>
      if t = 0 then some ((n : Int), rest)
      else if t = 1 then some (-(n : Int), rest)
      else none

/-- Character-list serialization: each code point as a varint. -/
def encChars : List Char → List Nat
  | [] => []
  | c :: cs => encNat c.toNat ++ encChars cs

/-- Decode exactly `n` code points. -/
def decChars : Nat → List Nat → Option (List Char × List Nat)
  | 0, rest => some ([], rest)
  | n + 1, bs =>
    match decNat bs with
    | none => none
    | some (c, rest) =>
      match decChars n rest with
      | none => none
      | some (cs, rest') => some (Char.ofNat c :: cs, rest')

/-- String serialization: length then the code points. -/
def encStr (s : String) : List Nat :=
  encNat s.data.length ++ encChars s.data

/-- Inverse of `encStr`. -/
def decStr (bs : List Nat) : Option (String × List Nat) :=
  match decNat bs with
  | none => none
  | some (n, rest) =>
    match decChars n rest with
    | none => none
    | some (cs, rest') => some (String.mk cs, rest')

/-- Value serialization: a type tag then the value. -/
def encVal : MVal → List Nat
  | .int i => 0 :: encInt i
  | .str s => 1 :: encStr s

/-- Inverse of `encVal`. -/
def decVal : List Nat → Option (MVal × List Nat)
  | [] => none
  | 0 :: bs =>
    match decInt bs with
    | none => none
    | some (i, rest) => some (.int i, rest)
  | 1 :: bs =>
    match decStr bs with
    | none => none
    | some (s, rest) => some (.str s, rest)
  | _ :: _ => none

/-- Serialization of the entries of a payload map. -/
def encPairs : List (String × MVal) → List Nat
  | [] => []
  | p :: ps => encStr p.1 ++ encVal p.2 ++ encPairs ps

/-- Decode exactly `n` payload entries. -/
def decPairs : Nat → List Nat → Option (List (String × MVal) × List Nat)
  | 0, rest => some ([], rest)
  | n + 1, bs =>
    match decStr bs with
    | none => none
    | some (k, r1) =>
      match decVal r1 with
      | none => none
      | some (v, r2) =>
        match decPairs n r2 with
        | none => none
        | some (ps, rest) => some ((k, v) :: ps, rest)

/-- Modelled from the external msgpack library: `msgpack.packb(payload)` as a
concrete injective byte serialization of the payload map. -/
def packb (p : Payload) : List Nat :=
  encNat (List.length p) ++ encPairs p

/-- Modelled from the external msgpack library: `msgpack.unpackb(body)`;
fails unless the whole byte string is one well-formed payload map. -/
def unpackb (bs : List Nat) : Option Payload :=
  match decNat bs with
  | none => none
  | some (n, rest) =>
    match decPairs n rest with
    | some (p, []) => some p
    | _ => none

/-- Modelled from the external cryptography library: deterministic Ed25519
signing as a symbolic signature value tied to the keypair and the body. -/
def mkSig (kp : Nat) (body : List Nat) : List Nat :=
  (kp % 256) :: body

/-- Character of the base64url alphabet at index `n < 64`. -/
def b64chr (n : Nat) : Char :=
  if n < 26 then Char.ofNat (65 + n)
  else if n < 52 then Char.ofNat (97 + (n - 26))
  else if n < 62 then Char.ofNat (48 + (n - 52))
  else if n = 62 then '-' else '_'

/-- Index of a character in the base64url alphabet. -/
def b64idx (c : Char) : Option Nat :=
  if 65 ≤ c.toNat ∧ c.toNat ≤ 90 then some (c.toNat - 65)
  else if 97 ≤ c.toNat ∧ c.toNat ≤ 122 then some (c.toNat - 97 + 26)
  else if 48 ≤ c.toNat ∧ c.toNat ≤ 57 then some (c.toNat - 48 + 52)
  else if c = '-' then some 62
  else if c = '_' then some 63
  else none

/-- The source's `b64u`: base64url encoding of a byte list with the `'='`
padding stripped (src/security.py line 8). -/
def b64u : List Nat → List Char
  | [] => []
  | [a] => [b64chr (a / 4), b64chr (a % 4 * 16)]
  | [a, b] => [b64chr (a / 4), b64chr (a % 4 * 16 + b / 16), b64chr (b % 16 * 4)]
  | a :: b :: c :: rest =>
    b64chr (a / 4) :: b64chr (a % 4 * 16 + b / 16) ::
      b64chr (b % 16 * 4 + c / 64) :: b64chr (c % 64) :: b64u rest

/-- The source's `b64u_d`: re-pad and base64url-decode (src/security.py
lines 9-10); `none` models the decoding exception on a malformed input. -/
def b64u_d : List Char → Option (List Nat)
  | [] => some []
  | [_] => none
  | [c1, c2] =>
    match b64idx c1, b64idx c2 with
    | some x1, some x2 => some [x1 * 4 + x2 / 16]
    | _, _ => none
  | [c1, c2, c3] =>
    match b64idx c1, b64idx c2, b64idx c3 with
    | some x1, some x2, some x3 => some [x1 * 4 + x2 / 16, x2 % 16 * 16 + x3 / 4]
    | _, _, _ => none
  | c1 :: c2 :: c3 :: c4 :: rest =>
    match b64idx c1, b64idx c2, b64idx c3, b64idx c4, b64u_d rest with
    | some x1, some x2, some x3, some x4, some tail =>
      some ((x1 * 4 + x2 / 16) :: (x2 % 16 * 16 + x3 / 4) :: (x3 % 4 * 64 + x4) :: tail)
    | _, _, _, _, _ => none

/-- `sign_token` from src/security.py: serialize the payload, sign the body,
and join the two base64url segments with `'.'`. -/
def sign_token (kp : Nat) (payload : Payload) : List Char :=
  b64u (packb payload) ++ '.' :: b64u (mkSig kp (packb payload))

/-- Failure modes of `verify_token` (exceptions in the source). -/
inductive TokenError where
  | malformed
  | badSignature
  | expired
deriving DecidableEq, Repr

/-- Split on the first `'.'` — Python `token.split(".", 1)`; `none` models the
unpacking `ValueError` when no dot is present. -/
def splitDot : List Char → Option (List Char × List Char)
  | [] => none
  | c :: rest =>
    if c = '.' then some ([], rest)
    else
      match splitDot rest with
      | some (l, r) => some (c :: l, r)
      | none => none

/-- Python `int(x)` applied to a payload value, as in `int(data["e"])`. -/
def intOfMVal : MVal → Option Int
  | .int i => some i
  | .str s => pyInt s.data

/-- `verify_token` from src/security.py: split the token, base64url-decode
both segments, check the signature over the exact body bytes, deserialize,
and reject with `expired` when the embedded `"e"` is in the past. -/
def verify_token (kp : Nat) (token : List Char) (now : Int) :
    Except TokenError Payload :=
  match splitDot token with
  | none => .error .malformed
  | some (b1, b2) =>
    match b64u_d b1, b64u_d b2 with
    | some body, some sig =>
      if sig = mkSig kp body then
        match unpackb body with
        | none => .error .malformed
        | some data =>
          match mget data "e" with
          | none => .ok data
          | some v =>
            match intOfMVal v with
            | none => .error .malformed
            | some e => if e < now then .error .expired else .ok data
      else .error .badSignature
    | _, _ => .error .malformed

/-! ## Codec round-trip lemmas -/

theorem decNat_encNatAux (fuel : Nat) : ∀ n, n ≤ fuel →
    ∀ rest, decNat (encNatAux fuel n ++ rest) = some (n, rest) := by
  induction fuel with
  | zero =>
    intro n hn rest
    interval_cases n
    simp [encNatAux, decNat]
  | succ fuel ih =>
    intro n hn rest
    rw [encNatAux]
    split
    · next h => simp [decNat, h]
    · next h =>
      have hd : n / 128 ≤ fuel := by omega
      simp only [List.cons_append, decNat, List.append_eq]
      rw [if_neg (by omega)]
      rw [ih (n / 128) hd]
      simp only [Option.some.injEq, Prod.mk.injEq]
      exact ⟨by omega, trivial⟩

theorem decNat_encNat (n : Nat) : ∀ rest, decNat (encNat n ++ rest) = some (n, rest) :=
  decNat_encNatAux n n le_rfl

theorem mem_encNatAux_lt (fuel : Nat) : ∀ n, ∀ b ∈ encNatAux fuel n, b < 256 := by
  induction fuel with
  | zero =>
    intro n b hb
    simp only [encNatAux, List.mem_singleton] at hb
    omega
  | succ fuel ih =>
    intro n b hb
    rw [encNatAux] at hb
    split at hb
    · next h => simp only [List.mem_singleton] at hb; omega
    · next h =>
      rcases List.mem_cons.mp hb with h1 | h2
      · omega
      · exact ih (n / 128) b h2

theorem mem_encNat_lt (n : Nat) : ∀ b ∈ encNat n, b < 256 :=
  mem_encNatAux_lt n n

theorem decInt_encInt (i : Int) (rest : List Nat) :
    decInt (encInt i ++ rest) = some (i, rest) := by
  unfold encInt
  split
  · next h =>
    simp only [List.cons_append, decInt, decNat_encNat]
    norm_num
    omega
  · next h =>
    simp only [List.cons_append, decInt, decNat_encNat]
    norm_num
    omega

theorem mem_encInt_lt (i : Int) : ∀ b ∈ encInt i, b < 256 := by
  intro b hb
  unfold encInt at hb
  split at hb <;>
    rcases List.mem_cons.mp hb with h1 | h2 <;>
      first
        | omega
        | exact mem_encNat_lt _ b h2

theorem decChars_encChars (cs : List Char) : ∀ rest,
    decChars cs.length (encChars cs ++ rest) = some (cs, rest) := by
  induction cs with
  | nil => intro rest; simp [decChars, encChars]
  | cons c cs ih =>
    intro rest
    simp only [encChars, List.length_cons, List.append_assoc, decChars,
      decNat_encNat, ih rest, Char.ofNat_toNat]

theorem mem_encChars_lt (cs : List Char) : ∀ b ∈ encChars cs, b < 256 := by
  induction cs with
  | nil => intro b hb; simp [encChars] at hb
  | cons c cs ih =>
    intro b hb
    simp only [encChars] at hb
    rcases List.mem_append.mp hb with h1 | h2
    · exact mem_encNat_lt _ b h1
    · exact ih b h2

theorem decStr_encStr (s : String) (rest : List Nat) :
    decStr (encStr s ++ rest) = some (s, rest) := by
  obtain ⟨d⟩ := s
  simp only [encStr, decStr, List.append_assoc, decNat_encNat, decChars_encChars]

theorem mem_encStr_lt (s : String) : ∀ b ∈ encStr s, b < 256 := by
  intro b hb
  unfold encStr at hb
  rcases List.mem_append.mp hb with h1 | h2
  · exact mem_encNat_lt _ b h1
  · exact mem_encChars_lt _ b h2

theorem decVal_encVal (v : MVal) (rest : List Nat) :
    decVal (encVal v ++ rest) = some (v, rest) := by
  cases v with
  | int i => simp only [encVal, List.cons_append, decVal, decInt_encInt]
  | str s => simp only [encVal, List.cons_append, decVal, decStr_encStr]

theorem mem_encVal_lt (v : MVal) : ∀ b ∈ encVal v, b < 256 := by
  intro b hb
  cases v with
  | int i =>
    simp only [encVal] at hb
    rcases List.mem_cons.mp hb with h1 | h2
    · omega
    · exact mem_encInt_lt _ b h2
  | str s =>
    simp only [encVal] at hb
    rcases List.mem_cons.mp hb with h1 | h2
    · omega
    · exact mem_encStr_lt _ b h2

theorem decPairs_encPairs (p : List (String × MVal)) : ∀ rest,
    decPairs (List.length p) (encPairs p ++ rest) = some (p, rest) := by
  induction p with
  | nil => intro rest; simp [decPairs, encPairs]
  | cons kv ps ih =>
    intro rest
    obtain ⟨k, v⟩ := kv
    simp only [encPairs, List.length_cons, List.append_assoc, decPairs,
      decStr_encStr, decVal_encVal, ih rest]

theorem mem_encPairs_lt (p : List (String × MVal)) : ∀ b ∈ encPairs p, b < 256 := by
  induction p with
  | nil => intro b hb; simp [encPairs] at hb
  | cons kv ps ih =>
    intro b hb
    simp only [encPairs, List.append_assoc] at hb
    rcases List.mem_append.mp hb with h1 | h2
    · exact mem_encStr_lt _ b h1
    · rcases List.mem_append.mp h2 with h3 | h4
      · exact mem_encVal_lt _ b h3
      · exact ih b h4

theorem unpackb_packb (p : Payload) : unpackb (packb p) = some p := by
  have h : decPairs (List.length p) (encPairs p) = some (p, []) := by
    have h0 := decPairs_encPairs p []
    rwa [List.append_nil] at h0
  simp only [unpackb, packb, decNat_encNat, h]

theorem mem_packb_lt (p : Payload) : ∀ b ∈ packb p, b < 256 := by
  intro b hb
  unfold packb at hb
  rcases List.mem_append.mp hb with h1 | h2
  · exact mem_encNat_lt _ b h1
  · exact mem_encPairs_lt _ b h2

theorem mem_mkSig_lt (kp : Nat) (body : List Nat) (hbody : ∀ b ∈ body, b < 256) :
    ∀ b ∈ mkSig kp body, b < 256 := by
  intro b hb
  unfold mkSig at hb
  rcases List.mem_cons.mp hb with h1 | h2
  · omega
  · exact hbody b h2

theorem b64idx_b64chr {n : Nat} (h : n < 64) : b64idx (b64chr n) = some n := by
  have hall : ∀ m : Fin 64, b64idx (b64chr m.val) = some m.val := by decide
  exact hall ⟨n, h⟩

theorem b64chr_ne_special {n : Nat} (h : n < 64) :
    b64chr n ≠ '.' ∧ b64chr n ≠ '=' := by
  have hall : ∀ m : Fin 64, b64chr m.val ≠ '.' ∧ b64chr m.val ≠ '=' := by decide
  exact hall ⟨n, h⟩

theorem b64u_d_b64u (bs : List Nat) (h : ∀ b ∈ bs, b < 256) :
    b64u_d (b64u bs) = some bs := by
  induction bs using b64u.induct with
  | case1 => rfl
  | case2 a =>
    have ha : a < 256 := h a (by simp)
    simp only [b64u, b64u_d, b64idx_b64chr (show a / 4 < 64 by omega),
      b64idx_b64chr (show a % 4 * 16 < 64 by omega)]
    have he : a / 4 * 4 + a % 4 * 16 / 16 = a := by omega
    rw [he]
  | case3 a b =>
    have ha : a < 256 := h a (by simp)
    have hb : b < 256 := h b (by simp)
    simp only [b64u, b64u_d, b64idx_b64chr (show a / 4 < 64 by omega),
      b64idx_b64chr (show a % 4 * 16 + b / 16 < 64 by omega),
      b64idx_b64chr (show b % 16 * 4 < 64 by omega)]
    have h1 : a / 4 * 4 + (a % 4 * 16 + b / 16) / 16 = a := by omega
    have h2 : (a % 4 * 16 + b / 16) % 16 * 16 + b % 16 * 4 / 4 = b := by omega
    rw [h1, h2]
  | case4 a b c rest ih =>
    have ha : a < 256 := h a (by simp)
    have hb : b < 256 := h b (by simp)
    have hc : c < 256 := h c (by simp)
    have hrest : ∀ x ∈ rest, x < 256 := by
      intro x hx; exact h x (by simp [hx])
    simp only [b64u, b64u_d, b64idx_b64chr (show a / 4 < 64 by omega),
      b64idx_b64chr (show a % 4 * 16 + b / 16 < 64 by omega),
      b64idx_b64chr (show b % 16 * 4 + c / 64 < 64 by omega),
      b64idx_b64chr (show c % 64 < 64 by omega), ih hrest]
    have h1 : a / 4 * 4 + (a % 4 * 16 + b / 16) / 16 = a := by omega
    have h2 : (a % 4 * 16 + b / 16) % 16 * 16 + (b % 16 * 4 + c / 64) / 4 = b := by omega
    have h3 : (b % 16 * 4 + c / 64) % 4 * 64 + c % 64 = c := by omega
    rw [h1, h2, h3]

theorem mem_b64u_ne_special (bs : List Nat) (h : ∀ b ∈ bs, b < 256) :
    ∀ ch ∈ b64u bs, ch ≠ '.' ∧ ch ≠ '=' := by
  induction bs using b64u.induct with
  | case1 => intro ch hch; simp [b64u] at hch
  | case2 a =>
    have ha : a < 256 := h a (by simp)
    intro ch hch
    simp only [b64u, List.mem_cons, List.not_mem_nil, or_false] at hch
    rcases hch with h1 | h1 <;>
      exact h1 ▸ b64chr_ne_special (by omega)
  | case3 a b =>
    have ha : a < 256 := h a (by simp)
    have hb : b < 256 := h b (by simp)
    intro ch hch
    simp only [b64u, List.mem_cons, List.not_mem_nil, or_false] at hch
    rcases hch with h1 | h1 | h1 <;>
      exact h1 ▸ b64chr_ne_special (by omega)
  | case4 a b c rest ih =>
    have ha : a < 256 := h a (by simp)
    have hb : b < 256 := h b (by simp)
    have hc : c < 256 := h c (by simp)
    have hrest : ∀ x ∈ rest, x < 256 := by
      intro x hx; exact h x (by simp [hx])
    intro ch hch
    simp only [b64u, List.mem_cons] at hch
    rcases hch with h1 | h1 | h1 | h1 | h1
    · exact h1 ▸ b64chr_ne_special (by omega)
    · exact h1 ▸ b64chr_ne_special (by omega)
    · exact h1 ▸ b64chr_ne_special (by omega)
    · exact h1 ▸ b64chr_ne_special (by omega)
    · exact ih hrest ch h1

theorem splitDot_append (s1 s2 : List Char) (h : '.' ∉ s1) :
    splitDot (s1 ++ '.' :: s2) = some (s1, s2) := by
  induction s1 with
  | nil => simp [splitDot]
  | cons c cs ih =>
    simp only [List.mem_cons, not_or] at h
    simp only [List.cons_append, splitDot, List.append_eq]
    rw [if_neg (fun hc => h.1 hc.symm)]
    rw [ih h.2]

/-- Core round-trip fact: verifying a token freshly signed with the same
keypair reduces to the expiry check on the embedded `"e"` field. -/
theorem verify_sign_token (kp : Nat) (p : Payload) (now : Int) :
    verify_token kp (sign_token kp p) now =
      (match mget p "e" with
        | none => .ok p
        | some v =>
          match intOfMVal v with
          | none => .error .malformed
          | some e => if e < now then .error .expired else .ok p) := by
  have hdot : '.' ∉ b64u (packb p) := fun hmem =>
    ((mem_b64u_ne_special _ (mem_packb_lt p)) '.' hmem).1 rfl
  simp only [verify_token, sign_token, splitDot_append _ _ hdot,
    b64u_d_b64u _ (mem_packb_lt p),
    b64u_d_b64u _ (mem_mkSig_lt kp _ (mem_packb_lt p)),
    unpackb_packb, if_pos]

/-! ## Data model (src/app.py, `License` / `Device` / `Activation` tables)

Datetimes are integers (seconds of the server's naive local clock); the
database is three Lean lists.  Rows keep the source's column names. -/

/-- The `License` table row (src/app.py lines 93-110). -/
structure License where
  id : Nat
  key : String
  license : Option String
  status : String
  plan : Option String
  max_version : String
  max_devices : Nat
  expires_at : Option Int
  notes : Option String
deriving DecidableEq, Repr

/-- The `Device` table row (src/app.py lines 112-125): the seat record used
by `register_device` and counted by `_public_license_dict`. -/
structure Device where
  license_id : Nat
  hwid : String
  hostname : Option String
  platform : Option String
  app_ver : Option String
  created_at : Int
  last_seen_at : Option Int
deriving DecidableEq, Repr

/-- The `Activation` table row (src/app.py lines 127-137): the seat record
used by `activate` / `validate_token` / `deactivate`. -/
structure Activation where
  license_key : String
  hwid : String
  created_at : Int
  last_seen_at : Option Int
deriving DecidableEq, Repr

/-- The persistent store: the three tables relevant to the license core. -/
structure DB where
  licenses : List License
  activations : List Activation
  devices : List Device
deriving DecidableEq, Repr

/-- Error taxonomy of the endpoints (the `HTTPException`s of src/app.py). -/
inductive ApiError where
  | licenseInvalid
  | licenseExpired
  | seatsExhausted (max : Nat)
  | invalidToken
  | deviceNotActivated
  | notFound
  | conflict
  | validationError
  | exhaustedRetries
  | serverError
deriving DecidableEq, Repr

/-- `select(License).where(License.key == key)).first()`. -/
def findLicense (db : DB) (key : String) : Option License :=
  List.find? (fun l => l.key == key) db.licenses

/-- `lic.expires_at and lic.expires_at < now_local_naive()`. -/
def licExpired (lic : License) (now : Int) : Bool :=
  match lic.expires_at with
  | some e => decide (e < now)
  | none => false

/-- Replace the first list entry satisfying `p` by its image under `f`
(the ORM pattern `row = ...first(); mutate row; commit`). -/
def updateFirst (p : α → Bool) (f : α → α) : List α → List α
  | [] => []
  | x :: xs => if p x then f x :: xs else x :: updateFirst p f xs

/-- Remove the first list entry satisfying `p` (`db.delete(row)` on the row
returned by `...first()`). -/
def eraseFirstP (p : α → Bool) : List α → List α
  | [] => []
  | x :: xs => if p x then xs else x :: eraseFirstP p xs

/-! ## Seat/Activation manager (src/app.py lines 677-803) -/

/-- The token payload built by `activate` (src/app.py line 694). -/
def payloadOf (lic : License) (now : Int) (kid : String) : Payload :=
  [("k", .str lic.key), ("e", .int (now + 24 * 3600)),
   ("m", .int (lic.max_devices : Int)), ("p", .str (lic.plan.getD "")),
   ("kid", .str kid)]

/-- The `/activate` endpoint (src/app.py lines 677-696): resolve the license,
check status and expiry, read the current activations, insert a seat for a
new hwid only when under the cap, and issue a signed token. -/
def activate (kp : Nat) (kid : String) (db : DB) (key hwid : String)
    (now : Int) : Except ApiError (List Char × DB) :=
  match findLicense db key with
  | none => .error .licenseInvalid
  | some lic =>
    if lic.status = "active" then
      if licExpired lic now then .error .licenseExpired
      else
        let actives := List.filter (fun a => a.license_key == lic.key) db.activations
        if actives.any (fun a => a.hwid == hwid) then
          .ok (sign_token kp (payloadOf lic now kid), db)
        else if lic.max_devices ≤ actives.length then
          .error (.seatsExhausted lic.max_devices)
        else
          .ok (sign_token kp (payloadOf lic now kid),
            { db with activations :=
                db.activations ++ [⟨lic.key, hwid, now, none⟩] })
    else .error .licenseInvalid

/-- Comparison of the token's `payload["k"]` against the `key` column. -/
def mvalEqStr : MVal → String → Bool
  | .str s, t => s == t
  | .int _, _ => false

/-- The `/validate` endpoint (`validate_token`, src/app.py lines 698-718):
every `verify_token` exception is caught and surfaced as `invalidToken`;
then the license is re-resolved by the embedded key and must be active, the
seat record must exist for the hwid, and its `last_seen_at` is refreshed. -/
def validate_token (kp : Nat) (db : DB) (token : List Char) (hwid : String)
    (now : Int) : Except ApiError DB :=
  match verify_token kp token now with
  | .error _ => .error .invalidToken
  | .ok payload =>
    match mget payload "k" with
    | none => .error .serverError
    | some kv =>
      match List.find? (fun l => mvalEqStr kv l.key) db.licenses with
      | none => .error .licenseInvalid
      | some lic =>
        if lic.status = "active" then
          match List.find?
              (fun a => a.license_key == lic.key && a.hwid == hwid)
              db.activations with
          | none => .error .deviceNotActivated
          | some _ =>
            .ok { db with activations :=
              (updateFirst (fun a => a.license_key == lic.key && a.hwid == hwid)
                (fun a => { a with last_seen_at := some now }) db.activations) }
        else .error .licenseInvalid

/-- The `/deactivate` endpoint (src/app.py lines 720-728): find the seat
record by (key, hwid), 404 when absent, otherwise physically delete it. -/
def deactivate (db : DB) (key hwid : String) : Except ApiError DB :=
  match List.find? (fun a => a.license_key == key && a.hwid == hwid)
      db.activations with
  | none => .error .notFound
  | some _ =>
    .ok { db with activations :=
      (eraseFirstP (fun a => a.license_key == key && a.hwid == hwid)
        db.activations) }

/-- The `/revoke/{key}` endpoint (src/app.py lines 654-661). -/
def revoke (db : DB) (key : String) : Except ApiError DB :=
  match findLicense db key with
  | none => .error .notFound
  | some _ =>
    .ok { db with licenses :=
      (updateFirst (fun l => l.key == key)
        (fun l => { l with status := "revoked" }) db.licenses) }

/-! ## Device registration and public status (src/app.py lines 192-212, 752-803) -/

/-- Request body of `/devices/register`. -/
structure DeviceRegisterIn where
  key : String
  hwid : String
  hostname : Option String
  platform : Option String
  app_ver : Option String
deriving DecidableEq, Repr

/-- Python truthiness of an optional string field (`if data.hostname and ...`). -/
def optTruthy : Option String → Bool
  | none => false
  | some s => s ≠ ""

/-- The metadata merge of the existing-device branch of `register_device`
(src/app.py lines 782-793), ending with the `last_seen_at` refresh. -/
def updDev (d : DeviceRegisterIn) (now : Int) (dev : Device) : Device :=
  let dev1 :=
    if optTruthy d.hostname && (d.hostname != dev.hostname) then
      { dev with hostname := d.hostname } else dev
  let dev2 :=
    if optTruthy d.platform && (d.platform != dev1.platform) then
      { dev1 with platform := d.platform } else dev1
  let dev3 :=
    if optTruthy d.app_ver && (d.app_ver != dev2.app_ver) then
      { dev2 with app_ver := d.app_ver } else dev2
  { dev3 with last_seen_at := some now }

/-- `used_devices`: `SELECT COUNT(*) FROM device WHERE license_id = lic.id`
(src/app.py lines 194 and 768). -/
def used_devices (db : DB) (lic : License) : Nat :=
  (List.filter (fun v => v.license_id == lic.id) db.devices).length

/-- The `/devices/register` endpoint (src/app.py lines 752-803): upsert the
`Device` row for (license, hwid); a new row rechecks the seat cap against the
`Device` count, an existing row only merges metadata and refreshes
`last_seen_at`.  Returns the `used_devices` count after the write. -/
def register_device (db : DB) (d : DeviceRegisterIn) (now : Int) :
    Except ApiError (Nat × DB) :=
  match findLicense db d.key with
  | none => .error .licenseInvalid
  | some lic =>
    if lic.status = "active" then
      if licExpired lic now then .error .licenseExpired
      else
        match List.find? (fun v => v.license_id == lic.id && v.hwid == d.hwid)
            db.devices with
        | none =>
          if lic.max_devices ≤ used_devices db lic then
            .error (.seatsExhausted lic.max_devices)
          else
            let db' := { db with devices := db.devices ++
              [⟨lic.id, d.hwid, d.hostname, d.platform, d.app_ver, now, none⟩] }
            .ok (used_devices db' lic, db')
        | some _ =>
          let db' := { db with devices :=
            (updateFirst (fun v => v.license_id == lic.id && v.hwid == d.hwid)
              (updDev d now) db.devices) }
          .ok (used_devices db' lic, db')
    else .error .licenseInvalid

/-- The fields of `_public_license_dict` (src/app.py lines 192-212) that the
claims are about. -/
structure PublicLicense where
  key : String
  status : String
  plan : Option String
  max_devices : Nat
  used_devices : Nat
  max_version : String
  expired : Bool
  app_allowed : Option Bool
deriving DecidableEq, Repr

/-- `_public_license_dict` (src/app.py lines 192-212): the public status
snapshot; `used_devices` counts `Device` rows only. -/
def _public_license_dict (db : DB) (lic : License) (now : Int)
    (app_ver : Option String) : PublicLicense :=
  { key := lic.key
    status := lic.status
    plan := lic.plan
    max_devices := lic.max_devices
    used_devices := used_devices db lic
    max_version := lic.max_version
    expired := licExpired lic now
    app_allowed :=
      match app_ver with
      | some v =>
        if lic.max_version ≠ "" then some (_version_lte v lic.max_version)
        else none
      | none => none }

/-- The `/license/lookup` endpoint (src/app.py lines 734-741). -/
def license_lookup (db : DB) (key : String) (app_ver : Option String)
    (now : Int) : Except ApiError PublicLicense :=
  match findLicense db key with
  | none => .error .notFound
  | some lic =>
    if lic.status = "active" then .ok (_public_license_dict db lic now app_ver)
    else .error .licenseInvalid

/-! ## License creation (src/app.py lines 459-512) -/

/-- Request body of `POST /licenses` (`LicenseCreate`). -/
structure LicenseCreate where
  key : Option String
  license : Option String
  plan : Option String
  max_devices : Nat
  max_version : Option String
  expires_days : Option Nat
  notes : Option String
deriving DecidableEq, Repr

/-- `ALLOWED_PLANS` (src/app.py line 459). -/
def ALLOWED_PLANS : List String := ["Free", "Plus", "Pro"]

/-- The collision-retry `while` loop of `create_license` (src/app.py lines
468-473), with the `tries` counter expressed as remaining fuel
(`fuel = 6 - tries`, entered with `fuel = 6`): on a collision the loop stops
with `ExhaustedRetries` once `tries + 1 > 5`, i.e. when `fuel = 1`, and
otherwise retries with the next generated key. -/
def keyLoop (db : DB) (gen : Nat → String) :
    Nat → String → Nat → Except ApiError String
  | 0, _, _ => .error .exhaustedRetries
  | fuel + 1, key, genIdx =>
    if (findLicense db key).isSome then
      if fuel = 0 then .error .exhaustedRetries
      else keyLoop db gen fuel (gen genIdx) (genIdx + 1)
    else .ok key

/-- The `License` row inserted by `create_license` once a free key is found
(src/app.py lines 475-494): status defaults to active, `max_version` to
"0.0.1", and `expires_at` is `now + expires_days` when that field is truthy. -/
def builtLicense (db : DB) (now : Int) (data : LicenseCreate)
    (key : String) : License :=
  { id := db.licenses.length + 1
    key := key
    license := data.license
    status := "active"
    plan := data.plan
    max_version := data.max_version.getD "0.0.1"
    max_devices := data.max_devices
    expires_at :=
      match data.expires_days with
      | some d => if d ≠ 0 then some (now + (d : Int) * 86400) else none
      | none => none
    notes := data.notes }

/-- `POST /licenses` (`create_license`, src/app.py lines 461-512): validate
the plan against the allow-list, pick the supplied key or a generated one,
run the bounded collision-retry loop, and insert the row.  `gen` models the
successive results of `generate_short_key`; in this sequential model the
commit cannot hit the duplicate-key `IntegrityError` (the loop has just
verified the key is absent), so `conflict` is never produced here. -/
def create_license (db : DB) (now : Int) (gen : Nat → String)
    (data : LicenseCreate) : Except ApiError (License × DB) :=
  if optTruthy data.plan && !(ALLOWED_PLANS.contains (data.plan.getD "")) then
    .error .validationError
  else
    let start : String × Nat :=
      match data.key with
      | some k => if k = "" then (gen 0, 1) else (k, 0)
      | none => (gen 0, 1)
    match keyLoop db gen 6 start.1 start.2 with
    | .error e => .error e
    | .ok key =>
      .ok (builtLicense db now data key,
        { db with licenses := db.licenses ++ [builtLicense db now data key] })

/-! ## Interleaving model of concurrent `/activate` requests

The seat branch of `activate` (src/app.py lines 685-690) is a two-phase
read-then-write against the shared store: phase 1 reads the activation rows
for the license (`db.exec(select(Activation)...)`); phase 2 decides on that
snapshot and, for a new hwid under the cap, inserts and commits.  Nothing in
the source serializes the two phases per license, so concurrent requests may
interleave arbitrarily between them.  `stepAct` is one phase of one request,
`runSched` executes a schedule (a list of request indices, each request
stepping twice). -/

/-- The per-request state of an in-flight `/activate` call: the snapshot it
read in phase 1 (if it has reached phase 2) and whether it finished. -/
structure ActReq where
  hwid : String
  snapshot : Option (List Activation)
  done : Bool
deriving DecidableEq, Repr

/-- One phase of one `/activate` request against the shared activation table,
for a fixed active, unexpired license (`key`, cap `maxDev`): phase 1 takes
the snapshot `select(Activation).where(license_key == key)`; phase 2 applies
the source's check-then-insert to that snapshot. -/
def stepAct (key : String) (maxDev : Nat) (now : Int)
    (acts : List Activation) (r : ActReq) : List Activation × ActReq :=
  if r.done then (acts, r)
  else
    match r.snapshot with
    | none =>
      (acts, { r with snapshot :=
        (some (List.filter (fun a => a.license_key == key) acts)) })
    | some snap =>
      if snap.any (fun a => a.hwid == r.hwid) then
        (acts, { r with done := true })
      else if maxDev ≤ snap.length then
        (acts, { r with done := true })
      else
        (acts ++ [⟨key, r.hwid, now, none⟩], { r with done := true })

/-- Run a schedule of request indices over the shared activation table. -/
def runSched (key : String) (maxDev : Nat) (now : Int) :
    List Nat → List Activation × List ActReq → List Activation × List ActReq
  | [], st => st
  | i :: rest, (acts, reqs) =>
    match reqs[i]? with
    | none => runSched key maxDev now rest (acts, reqs)
    | some r =>
      let s := stepAct key maxDev now acts r
      runSched key maxDev now rest (s.1, reqs.set i s.2)

/-- A fresh `/activate` request for a hwid. -/
def mkReq (hwid : String) : ActReq := ⟨hwid, none, false⟩

/-- Distinct seated hwids on the shared activation table for a license key. -/
def seatedHwids (key : String) (acts : List Activation) : List String :=
  ((List.filter (fun a => a.license_key == key) acts).map
    (fun a => a.hwid)).dedup

/-! ## Helper lemmas about the store operations -/

theorem find?_updateFirst {α : Type} (p : α → Bool) (f : α → α) (l : List α)
    (hp : ∀ a, p a = true → p (f a) = true) :
    ∀ a, List.find? p l = some a →
      List.find? p (updateFirst p f l) = some (f a) := by
  induction l with
  | nil => intro a h; simp [List.find?] at h
  | cons x xs ih =>
    intro a h
    by_cases hx : p x
    · rw [List.find?_cons_of_pos _ hx] at h
      injection h with h
      subst h
      unfold updateFirst
      rw [if_pos hx]
      exact List.find?_cons_of_pos _ (hp x hx)
    · rw [List.find?_cons_of_neg _ (by simpa using hx)] at h
      unfold updateFirst
      rw [if_neg (by simpa using hx)]
      rw [List.find?_cons_of_neg _ (by simpa using hx)]
      exact ih a h

theorem length_updateFirst {α : Type} (p : α → Bool) (f : α → α) (l : List α) :
    (updateFirst p f l).length = l.length := by
  induction l with
  | nil => rfl
  | cons x xs ih =>
    unfold updateFirst
    by_cases hx : p x
    · rw [if_pos hx]; simp
    · rw [if_neg hx]; simp [ih]

theorem length_filter_updateFirst {α : Type} (p : α → Bool) (f : α → α)
    (q : α → Bool) (hq : ∀ a, q (f a) = q a) (l : List α) :
    (List.filter q (updateFirst p f l)).length = (List.filter q l).length := by
  induction l with
  | nil => rfl
  | cons x xs ih =>
    unfold updateFirst
    by_cases hx : p x
    · rw [if_pos hx]
      simp only [List.filter_cons, hq x]
      cases q x <;> simp
    · rw [if_neg hx]
      simp only [List.filter_cons]
      cases q x <;> simp [ih]

theorem eraseFirstP_append_left_clean {α : Type} (p : α → Bool) (l1 l2 : List α)
    (h : ∀ a ∈ l1, p a = false) :
    eraseFirstP p (l1 ++ l2) = l1 ++ eraseFirstP p l2 := by
  induction l1 with
  | nil => rfl
  | cons x xs ih =>
    have hx : p x = false := h x (by simp)
    simp only [List.cons_append, eraseFirstP, hx, List.append_eq]
    simp only [Bool.false_eq_true, if_false]
    rw [ih (fun a ha => h a (by simp [ha]))]

/-- Inversion of a successful `/activate` call: the license had to resolve
and be active and unexpired, the token is the signed payload for it, and the
write can only have appended Activation rows (licenses and devices are
untouched). -/
theorem activate_ok_inv (kp : Nat) (kid : String) (db : DB)
    (key hwid : String) (now : Int) (tok : List Char) (db' : DB)
    (h : activate kp kid db key hwid now = .ok (tok, db')) :
    ∃ lic, findLicense db key = some lic ∧ lic.status = "active" ∧
      licExpired lic now = false ∧
      tok = sign_token kp (payloadOf lic now kid) ∧
      db'.licenses = db.licenses ∧ db'.devices = db.devices := by
  simp only [activate] at h
  split at h
  · exact absurd h (by simp)
  · next lic hfind =>
    refine ⟨lic, hfind, ?_⟩
    split at h
    · next hstatus =>
      split at h
      · exact absurd h (by simp)
      · next hexp =>
        split at h
        · injection h with h
          injection h with h1 h2
          subst h2
          exact ⟨hstatus, by simpa using hexp, h1.symm, rfl, rfl⟩
        · split at h
          · exact absurd h (by simp)
          · injection h with h
            injection h with h1 h2
            subst h2
            exact ⟨hstatus, by simpa using hexp, h1.symm, rfl, rfl⟩
    · exact absurd h (by simp)

/-! ## Concrete fixtures for witnesses and counterexamples -/

/-- An active license "K" with one seat and no expiry. -/
def licK : License := ⟨1, "K", none, "active", none, "0.0.1", 1, none, none⟩

/-- Store holding only `licK`, no seats. -/
def dbK : DB := ⟨[licK], [], []⟩

/-- Store holding `licK` and a seat record for hwid "A" (`last_seen_at` unset). -/
def dbKA : DB := ⟨[licK], [⟨"K", "A", 0, none⟩], []⟩

/-- `licK` after revocation. -/
def licKrev : License := ⟨1, "K", none, "revoked", none, "0.0.1", 1, none, none⟩

/-- `dbKA` after `revoke "K"`. -/
def dbKArev : DB := ⟨[licKrev], [⟨"K", "A", 0, none⟩], []⟩

/-- A key generator that always returns a fresh key. -/
def genFresh : Nat → String := fun _ => "TKT-FRESH"

/-- A key generator that always collides with `licK`. -/
def genColl : Nat → String := fun _ => "K"

/-- A creation request supplying the already-taken key "K". -/
def reqDupKey : LicenseCreate := ⟨some "K", none, none, 1, none, none, none⟩

/-- The license row created for `reqDupKey` when the generator yields a fresh key. -/
def licFresh : License := ⟨2, "TKT-FRESH", none, "active", none, "0.0.1", 1, none, none⟩

/-- A structurally valid, correctly signed token whose embedded expiry is 10. -/
def tokExpired : List Char := sign_token 7 [("k", .str "K"), ("e", .int 10)]

/-- The store after `activate` seats `hwid` on license `key` at time `now`. -/
def dbIns (db : DB) (key hwid : String) (now : Int) : DB :=
  { db with activations := db.activations ++ [⟨key, hwid, now, none⟩] }

/-- Component accessor for a parsed version triple. -/
def tripleGet : Int × Int × Int → Nat → Int
  | (a, _, _), 0 => a
  | (_, b, _), 1 => b
  | (_, _, c), _ => c

theorem semComp_eq_zero (parts : List (List Char)) (i : Nat)
    (h : parts[i]? = none ∨ parts[i]? = some [] ∨
      ∃ p, parts[i]? = some p ∧ pyInt p = none) :
    semComp parts i = 0 := by
  unfold semComp
  rcases h with h | h | ⟨p, hp, hip⟩
  · rw [h]
  · rw [h]; simp
  · rw [hp]
    show (if p = [] then 0 else (pyInt p).getD 0) = 0
    by_cases hpe : p = []
    · rw [if_pos hpe]
    · rw [if_neg hpe, hip]
      rfl

/-! ## The claims -/

/-- C1: the seat branch of `activate` is a check-then-insert that the source
does not serialize per license.  With `max_devices = 1` and two concurrent
activations for the distinct hwids "A" and "B", the interleaving read-A,
read-B, write-A, write-B seats both hwids — the seated-hwid count reaches 2,
exceeding the cap of 1 — whereas the serialized schedule of the same two
requests seats exactly one.  This refutes the claimed invariant for the code
as written and confirms the race the spec requires to be closed. -/
theorem claim_C1_race :
    (seatedHwids "K"
      (runSched "K" 1 0 [0, 1, 0, 1] ([], [mkReq "A", mkReq "B"])).1).length = 2 ∧
    (seatedHwids "K"
      (runSched "K" 1 0 [0, 0, 1, 1] ([], [mkReq "A", mkReq "B"])).1).length = 1 :=
  ⟨rfl, rfl⟩

/-- C8: `_parse_semver` is total, yields a triple of integers with any
missing, empty or non-numeric component defaulting to zero; `_version_lte`
is the lexicographic order on the parsed triples; and the three concrete
comparisons of the spec hold. -/
theorem claim_C8 :
    (∀ a b : String, _version_lte a b = true ↔
      ((_parse_semver a).1 < (_parse_semver b).1 ∨
        ((_parse_semver a).1 = (_parse_semver b).1 ∧
          ((_parse_semver a).2.1 < (_parse_semver b).2.1 ∨
            ((_parse_semver a).2.1 = (_parse_semver b).2.1 ∧
              (_parse_semver a).2.2 ≤ (_parse_semver b).2.2))))) ∧
    (∀ (s : String) (i : Nat), i < 3 →
      ((splitOnChar '.' (pyStrip s.data))[i]? = none ∨
        (splitOnChar '.' (pyStrip s.data))[i]? = some [] ∨
        (∃ p, (splitOnChar '.' (pyStrip s.data))[i]? = some p ∧ pyInt p = none)) →
      tripleGet (_parse_semver s) i = 0) ∧
    _version_lte "1.2.3" "1.2.10" = true ∧
    _version_lte "2.0.0" "1.9.9" = false ∧
    _version_lte "" "1.0.0" = true := by
  refine ⟨?_, ?_, by decide, by decide, by decide⟩
  · intro a b
    have h : ∀ x y : Int × Int × Int, tripleLeB x y = true ↔
        (x.1 < y.1 ∨ (x.1 = y.1 ∧
          (x.2.1 < y.2.1 ∨ (x.2.1 = y.2.1 ∧ x.2.2 ≤ y.2.2)))) := by
      rintro ⟨a1, a2, a3⟩ ⟨b1, b2, b3⟩
      simp [tripleLeB]
    exact h _ _
  · intro s i hi hcond
    by_cases hs : s.data = []
    · simp only [_parse_semver, if_pos hs]
      interval_cases i <;> rfl
    · simp only [_parse_semver, if_neg hs]
      interval_cases i
      · exact semComp_eq_zero _ _ hcond
      · exact semComp_eq_zero _ _ hcond
      · exact semComp_eq_zero _ _ hcond

/-- C8 witness: the non-numeric middle component of "1.x.3" parses as 0, and
the three concrete comparisons evaluate as claimed. -/
theorem claim_C8_witness :
    tripleGet (_parse_semver "1.x.3") 1 = 0 ∧
    _version_lte "1.2.3" "1.2.10" = true :=
  ⟨claim_C8.2.1 "1.x.3" 1 (by decide)
    (Or.inr (Or.inr ⟨['x'], by decide⟩)),
   claim_C8.2.2.1⟩

/-- C3: for every payload map whose embedded expiry is not in the past,
verifying the output of `sign_token` succeeds and returns the original
payload exactly, and the transport string is the two base64url segments
joined by a dot with no padding character `'='` in either segment. -/
theorem claim_C3 (kp : Nat) (p : Payload) (now : Int)
    (hexp : ∀ v, mget p "e" = some v →
      ∃ i, intOfMVal v = some i ∧ ¬ i < now) :
    verify_token kp (sign_token kp p) now = .ok p ∧
    sign_token kp p = b64u (packb p) ++ '.' :: b64u (mkSig kp (packb p)) ∧
    '.' ∉ b64u (packb p) ∧ '=' ∉ b64u (packb p) ∧
    '.' ∉ b64u (mkSig kp (packb p)) ∧ '=' ∉ b64u (mkSig kp (packb p)) := by
  refine ⟨?_, rfl, ?_, ?_, ?_, ?_⟩
  · rw [verify_sign_token]
    cases hm : mget p "e" with
    | none => rfl
    | some v =>
      obtain ⟨i, hi, hlt⟩ := hexp v hm
      simp [hi, hlt]
  · exact fun hmem => (mem_b64u_ne_special _ (mem_packb_lt p) '.' hmem).1 rfl
  · exact fun hmem => (mem_b64u_ne_special _ (mem_packb_lt p) '=' hmem).2 rfl
  · exact fun hmem =>
      (mem_b64u_ne_special _ (mem_mkSig_lt kp _ (mem_packb_lt p)) '.' hmem).1 rfl
  · exact fun hmem =>
      (mem_b64u_ne_special _ (mem_mkSig_lt kp _ (mem_packb_lt p)) '=' hmem).2 rfl

/-- C3 witness: round trip at a concrete payload with future expiry. -/
theorem claim_C3_witness :
    verify_token 7 (sign_token 7 [("k", MVal.str "K"), ("e", MVal.int 100)]) 50 =
      .ok [("k", MVal.str "K"), ("e", MVal.int 100)] :=
  (claim_C3 7 [("k", MVal.str "K"), ("e", MVal.int 100)] 50
    (fun v hv => by
      rw [show mget [("k", MVal.str "K"), ("e", MVal.int 100)] "e" =
        some (MVal.int 100) from rfl] at hv
      injection hv with h
      exact ⟨100, by rw [← h]; rfl, by decide⟩)).1

/-- C10: a correctly signed token whose payload has no "e" field verifies
successfully at every current time — the expiry check is skipped entirely,
so such a token never fails with `expired`. -/
theorem claim_C10 (kp : Nat) (p : Payload) (now : Int)
    (h : mget p "e" = none) :
    verify_token kp (sign_token kp p) now = .ok p := by
  rw [verify_sign_token, h]

/-- C10 witness: a concrete expiry-free token verifies at a large time. -/
theorem claim_C10_witness :
    verify_token 7 (sign_token 7 [("k", MVal.str "K")]) 999999999 =
      .ok [("k", MVal.str "K")] :=
  claim_C10 7 [("k", MVal.str "K")] 999999999 rfl

/-- C7 counterexample: a well-formed, correctly signed token whose embedded
expiry (10) is before the current time (100) makes `verify_token` fail with
the distinct error `expired`, but the `/validate` endpoint surfaces it as
`invalidToken` — exactly the same error it reports for a malformed token —
so the distinct kind is downgraded at the caller boundary. -/
theorem claim_C7_counterexample :
    verify_token 7 tokExpired 100 = .error .expired ∧
    validate_token 7 dbKA tokExpired "A" 100 = .error .invalidToken ∧
    validate_token 7 dbKA (String.data "garbage") "A" 100 =
      .error .invalidToken :=
  ⟨rfl, rfl, rfl⟩

/-- C7 amended: `verify_token` itself does fail with the distinct error kind
`expired` on a stale embedded expiry, but the `/validate` endpoint catches
every verification failure and surfaces it uniformly as `invalidToken`, so
the distinction is not propagated to the caller. -/
theorem claim_C7_amended (kp : Nat) (p : Payload) (now : Int) (v : MVal)
    (e : Int) (hv : mget p "e" = some v) (hi : intOfMVal v = some e)
    (hlt : e < now) :
    verify_token kp (sign_token kp p) now = .error .expired ∧
    ∀ db hwid, validate_token kp db (sign_token kp p) hwid now =
      .error .invalidToken := by
  have h1 : verify_token kp (sign_token kp p) now = .error .expired := by
    rw [verify_sign_token, hv]
    simp [hi, hlt]
  exact ⟨h1, fun db hwid => by simp [validate_token, h1]⟩

/-- C7 amended witness: the concrete expired token from the counterexample
instantiates the amended statement. -/
theorem claim_C7_amended_witness :
    verify_token 7 tokExpired 100 = .error .expired :=
  (claim_C7_amended 7 [("k", MVal.str "K"), ("e", MVal.int 10)] 100
    (MVal.int 10) 10 rfl rfl (by decide)).1

theorem updDev_license_id (d : DeviceRegisterIn) (now : Int) (v : Device) :
    (updDev d now v).license_id = v.license_id := by
  simp only [updDev]
  split_ifs <;> rfl

theorem updDev_hwid (d : DeviceRegisterIn) (now : Int) (v : Device) :
    (updDev d now v).hwid = v.hwid := by
  simp only [updDev]
  split_ifs <;> rfl

/-- C5 counterexample: hwid "A" already holds the seat of license "K" with
`last_seen_at = none`; re-activating "A" at time 100 succeeds but returns the
store completely unchanged — the seat record's `last_seen_at` is still `none`
instead of being refreshed to the current time. -/
theorem claim_C5_counterexample :
    activate 7 "KID" dbKA "K" "A" 100 =
      .ok (sign_token 7 (payloadOf licK 100 "KID"), dbKA) ∧
    dbKA.activations = [⟨"K", "A", 0, none⟩] :=
  ⟨rfl, rfl⟩

/-- C5 amended: a second `activate` with an already-seated hwid leaves the
store entirely unchanged — the seat count does not increase and the cap is
not rechecked (no hypothesis bounds the seat count here), but `last_seen_at`
is NOT refreshed; only a second `register_device` with the same hwid keeps
the device count unchanged, skips the cap check, and refreshes the record's
`last_seen_at` to the current time. -/
theorem claim_C5_amended (kp : Nat) (kid : String) (db : DB)
    (key hwid : String) (now : Int) (lic : License)
    (hfind : findLicense db key = some lic)
    (hstatus : lic.status = "active")
    (hexp : licExpired lic now = false)
    (hseated : (List.filter (fun a => a.license_key == lic.key)
        db.activations).any (fun a => a.hwid == hwid) = true) :
    activate kp kid db key hwid now =
      .ok (sign_token kp (payloadOf lic now kid), db) ∧
    (∀ (d : DeviceRegisterIn) (dev : Device),
      findLicense db d.key = some lic →
      List.find? (fun v => v.license_id == lic.id && v.hwid == d.hwid)
        db.devices = some dev →
      ∃ db', register_device db d now = .ok (used_devices db' lic, db') ∧
        used_devices db' lic = used_devices db lic ∧
        List.find? (fun v => v.license_id == lic.id && v.hwid == d.hwid)
          db'.devices = some (updDev d now dev) ∧
        (updDev d now dev).last_seen_at = some now) := by
  constructor
  · simp [activate, hfind, hstatus, hexp, hseated]
  · intro d dev hfind2 hdev
    refine ⟨{ db with devices :=
      (updateFirst (fun v => v.license_id == lic.id && v.hwid == d.hwid)
        (updDev d now) db.devices) }, ?_, ?_, ?_, rfl⟩
    · simp [register_device, hfind2, hstatus, hexp, hdev]
    · show (List.filter (fun v => v.license_id == lic.id)
          (updateFirst (fun v => v.license_id == lic.id && v.hwid == d.hwid)
            (updDev d now) db.devices)).length =
        (List.filter (fun v => v.license_id == lic.id) db.devices).length
      exact length_filter_updateFirst _ _ _
        (fun a => by rw [updDev_license_id]) db.devices
    · show List.find? (fun v => v.license_id == lic.id && v.hwid == d.hwid)
          (updateFirst (fun v => v.license_id == lic.id && v.hwid == d.hwid)
            (updDev d now) db.devices) = some (updDev d now dev)
      exact find?_updateFirst _ _ _
        (fun a ha => by rwa [updDev_license_id, updDev_hwid]) dev hdev

/-- C5 amended witness: the already-seated hwid "A" of `dbKA` re-activates
with the store unchanged. -/
theorem claim_C5_amended_witness :
    activate 7 "KID" dbKA "K" "A" 100 =
      .ok (sign_token 7 (payloadOf licK 100 "KID"), dbKA) :=
  (claim_C5_amended 7 "KID" dbKA "K" "A" 100 licK rfl rfl rfl rfl).1

/-- One unfolding of the collision-retry loop. -/
theorem keyLoop_succ (db : DB) (gen : Nat → String) (fuel : Nat)
    (key : String) (genIdx : Nat) :
    keyLoop db gen (fuel + 1) key genIdx =
      if (findLicense db key).isSome then
        (if fuel = 0 then .error .exhaustedRetries
         else keyLoop db gen fuel (gen genIdx) (genIdx + 1))
      else .ok key := rfl

theorem keyLoop_step (db : DB) (gen : Nat → String) (fuel : Nat)
    (key : String) (genIdx : Nat)
    (hsome : (findLicense db key).isSome = true) (hf : fuel ≠ 0) :
    keyLoop db gen (fuel + 1) key genIdx =
      keyLoop db gen fuel (gen genIdx) (genIdx + 1) := by
  rw [keyLoop_succ, hsome]
  simp [hf]

/-- C6 counterexample: the store already holds license "K" and the creation
request supplies key "K"; `create_license` does NOT fail with `conflict` — it
silently discards the supplied key, draws "TKT-FRESH" from the generator and
succeeds with that key. -/
theorem claim_C6_counterexample :
    create_license dbK 0 genFresh reqDupKey =
      .ok (licFresh, ⟨[licK, licFresh], [], []⟩) :=
  rfl

/-- C6 amended: when the supplied key already exists, `create_license` does
not fail with `conflict`; it enters the collision-retry loop and, if the
first generated key is free, succeeds with that generated key (a duplicate
supplied key is silently replaced; the 409 `conflict` arises only from a
commit-time integrity race outside this sequential model).  When every
generated key also collides, creation fails with `exhaustedRetries` after
exactly six collision checks — the loop never runs unboundedly. -/
theorem claim_C6_amended (db : DB) (now : Int) (gen : Nat → String)
    (data : LicenseCreate) (k : String)
    (hplan : (optTruthy data.plan &&
      !(ALLOWED_PLANS.contains (data.plan.getD ""))) = false)
    (hkey : data.key = some k) (hk : ¬ k = "")
    (hdup : (findLicense db k).isSome = true) :
    ((findLicense db (gen 0)).isSome = false →
      create_license db now gen data =
        .ok (builtLicense db now data (gen 0),
          { db with licenses := db.licenses ++ [builtLicense db now data (gen 0)] }) ∧
      (builtLicense db now data (gen 0)).key = gen 0) ∧
    ((∀ i : Nat, i < 5 → (findLicense db (gen i)).isSome = true) →
      create_license db now gen data = .error .exhaustedRetries) := by
  have hstart : (match data.key with
      | some k0 => if k0 = "" then (gen 0, 1) else (k0, 0)
      | none => (gen 0, 1)) = ((k, 0) : String × Nat) := by
    rw [hkey]
    simp [hk]
  have h6 : keyLoop db gen 6 k 0 = keyLoop db gen 5 (gen 0) 1 :=
    keyLoop_step db gen 5 k 0 hdup (by decide)
  constructor
  · intro h0
    have hkl : keyLoop db gen 6 k 0 = .ok (gen 0) := by
      rw [h6]
      have h5 := keyLoop_succ db gen 4 (gen 0) 1
      rw [h0] at h5
      simpa using h5
    refine ⟨?_, rfl⟩
    simp only [create_license, hplan, Bool.false_eq_true, if_false, hstart, hkl]
  · intro hgen
    have hkl : keyLoop db gen 6 k 0 = .error .exhaustedRetries := by
      rw [h6,
        keyLoop_step db gen 4 (gen 0) 1 (hgen 0 (by decide)) (by decide),
        keyLoop_step db gen 3 (gen 1) 2 (hgen 1 (by decide)) (by decide),
        keyLoop_step db gen 2 (gen 2) 3 (hgen 2 (by decide)) (by decide),
        keyLoop_step db gen 1 (gen 3) 4 (hgen 3 (by decide)) (by decide)]
      have h1 := keyLoop_succ db gen 0 (gen 4) 5
      rw [hgen 4 (by decide)] at h1
      simpa using h1
    simp only [create_license, hplan, Bool.false_eq_true, if_false, hstart, hkl]

/-- C6 amended witness: with the always-colliding generator, creating with
the duplicate supplied key "K" fails with `exhaustedRetries`. -/
theorem claim_C6_amended_witness :
    create_license dbK 0 genColl reqDupKey = .error .exhaustedRetries :=
  (claim_C6_amended dbK 0 genColl reqDupKey "K" rfl rfl (by decide) rfl).2
    (fun i _ => rfl)

/-- C9: the `used_devices` field of the public license status counts `Device`
rows only, and a successful `activate` never changes it (it writes only
`Activation` rows).  Consequently a license whose seats were all consumed via
`activate` still reports `used_devices = 0` while `activate` simultaneously
refuses a new hwid with `seatsExhausted`. -/
theorem claim_C9 (kp : Nat) (kid : String) :
    (∀ (db : DB) (key hwid : String) (now : Int) (tok : List Char) (db' : DB)
        (lic : License),
      activate kp kid db key hwid now = .ok (tok, db') →
      used_devices db' lic = used_devices db lic) ∧
    (∀ (db : DB) (lic : License) (hwid : String) (now : Int),
      findLicense db lic.key = some lic →
      lic.status = "active" →
      licExpired lic now = false →
      db.devices = [] →
      lic.max_devices ≤
        (List.filter (fun a => a.license_key == lic.key) db.activations).length →
      (List.filter (fun a => a.license_key == lic.key) db.activations).any
        (fun a => a.hwid == hwid) = false →
      used_devices db lic = 0 ∧
      license_lookup db lic.key none now =
        .ok (_public_license_dict db lic now none) ∧
      (_public_license_dict db lic now none).used_devices = 0 ∧
      activate kp kid db lic.key hwid now =
        .error (.seatsExhausted lic.max_devices)) := by
  constructor
  · intro db key hwid now tok db' lic hact
    obtain ⟨lic0, _, _, _, _, _, hdev⟩ :=
      activate_ok_inv kp kid db key hwid now tok db' hact
    unfold used_devices
    rw [hdev]
  · intro db lic hwid now hfind hstatus hexp hdevnil hfull hnew
    have hused : used_devices db lic = 0 := by
      unfold used_devices
      rw [hdevnil]
      rfl
    refine ⟨hused, ?_, hused, ?_⟩
    · simp [license_lookup, hfind, hstatus]
    · simp [activate, hfind, hstatus, hexp, hnew, hfull]

/-- C9 witness: in `dbKA` the single seat of license "K" is an `Activation`
row consumed via `activate`; the status still reports `used_devices = 0`
while a fresh hwid "B" is refused with `seatsExhausted 1`. -/
theorem claim_C9_witness :
    used_devices dbKA licK = 0 ∧
    activate 7 "KID" dbKA "K" "B" 0 = .error (.seatsExhausted 1) := by
  obtain ⟨h1, h2, h3, h4⟩ := (claim_C9 7 "KID").2 dbKA licK "B" 0 rfl rfl rfl rfl
    (by decide) (by decide)
  exact ⟨h1, h4⟩

/-- C2: a token issued by a successful `activate` for license `key`, after
the license is revoked, is rejected by `/validate` with `licenseInvalid` for
every hwid and every time within the token's 24h window — even though the
signature still verifies and the embedded expiry is still in the future,
because `validate_token` re-resolves the live license status. -/
theorem claim_C2 (kp : Nat) (kid : String) (db db1 db2 : DB)
    (key hwid hwid' : String) (now now' : Int) (tok : List Char)
    (hact : activate kp kid db key hwid now = .ok (tok, db1))
    (hrev : revoke db1 key = .ok db2)
    (hfresh : now' ≤ now + 24 * 3600) :
    validate_token kp db2 tok hwid' now' = .error .licenseInvalid := by
  obtain ⟨lic, hfind, hstatus, hexp, htok, hlic1, hdev1⟩ :=
    activate_ok_inv kp kid db key hwid now tok db1 hact
  have hfind' : List.find? (fun l => l.key == key) db.licenses = some lic := hfind
  have hbeq : (fun l : License => l.key == key) lic = true :=
    @List.find?_some License (fun l => l.key == key) lic db.licenses hfind'
  have hbeq2 : (lic.key == key) = true := hbeq
  have hkeq : lic.key = key := eq_of_beq hbeq2
  have hfind1 : findLicense db1 key = some lic := by
    unfold findLicense at hfind ⊢
    rw [hlic1]
    exact hfind
  have hdb2 : db2.licenses =
      updateFirst (fun l => l.key == key)
        (fun l => { l with status := "revoked" }) db.licenses := by
    simp only [revoke, hfind1] at hrev
    injection hrev with hrev
    rw [← hrev, ← hlic1]
  have hver : verify_token kp tok now' = .ok (payloadOf lic now kid) := by
    rw [htok, verify_sign_token]
    have hm : mget (payloadOf lic now kid) "e" =
        some (MVal.int (now + 24 * 3600)) := rfl
    rw [hm]
    show (if now + 24 * 3600 < now' then Except.error TokenError.expired
      else Except.ok (payloadOf lic now kid)) = Except.ok (payloadOf lic now kid)
    rw [if_neg (by omega)]
  have hgetk : mget (payloadOf lic now kid) "k" = some (MVal.str lic.key) := rfl
  have hfind2 : List.find? (fun l => mvalEqStr (MVal.str lic.key) l.key)
      db2.licenses = some { lic with status := "revoked" } := by
    have hpred : (fun l : License => mvalEqStr (MVal.str lic.key) l.key) =
        (fun l : License => l.key == key) := by
      funext l
      show (lic.key == l.key) = (l.key == key)
      rw [hkeq]
      exact Bool.beq_comm
    rw [hpred, hdb2]
    refine find?_updateFirst _ _ _ (fun a ha => ?_) lic ?_
    · simpa using ha
    · exact hfind'
  simp [validate_token, hver, hgetk, hfind2]

/-- C2 witness: the concrete pipeline — activate "A" on `dbK`, revoke "K",
then validate the issued token — fails with `licenseInvalid`. -/
theorem claim_C2_witness :
    validate_token 7 dbKArev (sign_token 7 (payloadOf licK 0 "KID")) "A" 50 =
      .error .licenseInvalid :=
  claim_C2 7 "KID" dbK dbKA dbKArev "K" "A" "A" 0 50
    (sign_token 7 (payloadOf licK 0 "KID")) rfl rfl (by decide)

/-- C4: for an active, unexpired license with `max_devices = 1` and no seat
records, activating hwid "A" succeeds and returns a token, seating "A"; then
activating a distinct hwid "B" fails with `seatsExhausted 1`; deactivating
"A" physically removes the seat record (the store returns to its exact
pre-activation state); after which activating "B" succeeds.  Deactivate
fails with `notFound` when no seat record exists for the (key, hwid) pair. -/
theorem claim_C4 (kp : Nat) (kid : String) (db : DB) (lic : License)
    (A B : String) (now : Int)
    (hfind : findLicense db lic.key = some lic)
    (hstatus : lic.status = "active")
    (hexp : licExpired lic now = false)
    (hmax : lic.max_devices = 1)
    (hseats : List.filter (fun a => a.license_key == lic.key)
      db.activations = [])
    (hAB : (A == B) = false) :
    activate kp kid db lic.key A now =
      .ok (sign_token kp (payloadOf lic now kid), dbIns db lic.key A now) ∧
    activate kp kid (dbIns db lic.key A now) lic.key B now =
      .error (.seatsExhausted 1) ∧
    deactivate (dbIns db lic.key A now) lic.key A = .ok db ∧
    activate kp kid db lic.key B now =
      .ok (sign_token kp (payloadOf lic now kid), dbIns db lic.key B now) ∧
    deactivate db lic.key B = .error .notFound := by
  have hnone : ∀ a ∈ db.activations, (a.license_key == lic.key) = false := by
    intro a ha
    simpa using List.filter_eq_nil_iff.mp hseats a ha
  have hfind1 : findLicense (dbIns db lic.key A now) lic.key = some lic := hfind
  have hfilter1 : List.filter (fun a => a.license_key == lic.key)
      ((dbIns db lic.key A now).activations) =
        [⟨lic.key, A, now, none⟩] := by
    show List.filter (fun a => a.license_key == lic.key)
      (db.activations ++ [⟨lic.key, A, now, none⟩]) = _
    rw [List.filter_append, hseats]
    simp
  have h1 : activate kp kid db lic.key A now =
      .ok (sign_token kp (payloadOf lic now kid), dbIns db lic.key A now) := by
    simp [activate, hfind, hstatus, hexp, hseats, hmax, dbIns]
  have h2 : activate kp kid (dbIns db lic.key A now) lic.key B now =
      .error (.seatsExhausted 1) := by
    simp [activate, hfind1, hstatus, hexp, hfilter1, hAB, hmax]
  have hq : ∀ a ∈ db.activations,
      (a.license_key == lic.key && a.hwid == A) = false := by
    intro a ha
    rw [hnone a ha]
    rfl
  have hfindq : List.find? (fun a => a.license_key == lic.key && a.hwid == A)
      ((dbIns db lic.key A now).activations) =
        some ⟨lic.key, A, now, none⟩ := by
    show List.find? _ (db.activations ++ [⟨lic.key, A, now, none⟩]) = _
    rw [List.find?_append,
      List.find?_eq_none.mpr (fun x hx => by simp [hq x hx])]
    simp
  have h3 : deactivate (dbIns db lic.key A now) lic.key A = .ok db := by
    simp only [deactivate, hfindq]
    have her : eraseFirstP (fun a => a.license_key == lic.key && a.hwid == A)
        ((dbIns db lic.key A now).activations) = db.activations := by
      show eraseFirstP _ (db.activations ++ [⟨lic.key, A, now, none⟩]) = _
      rw [eraseFirstP_append_left_clean _ _ _ hq]
      simp [eraseFirstP]
    rw [her]
    rfl
  have h4 : activate kp kid db lic.key B now =
      .ok (sign_token kp (payloadOf lic now kid), dbIns db lic.key B now) := by
    simp [activate, hfind, hstatus, hexp, hseats, hmax, dbIns]
  have h5 : deactivate db lic.key B = .error .notFound := by
    have hqB : ∀ a ∈ db.activations,
        (a.license_key == lic.key && a.hwid == B) = false := by
      intro a ha
      rw [hnone a ha]
      rfl
    unfold deactivate
    rw [List.find?_eq_none.mpr (fun x hx => by simp [hqB x hx])]
  exact ⟨h1, h2, h3, h4, h5⟩

/-- C4 witness: the concrete scenario on `dbK` (license "K", cap 1): seat
"A", refuse "B", free "A", seat "B"; and deactivating an unseated hwid is
`notFound`. -/
theorem claim_C4_witness :
    activate 7 "KID" dbK "K" "A" 0 =
      .ok (sign_token 7 (payloadOf licK 0 "KID"), dbIns dbK "K" "A" 0) ∧
    activate 7 "KID" (dbIns dbK "K" "A" 0) "K" "B" 0 =
      .error (.seatsExhausted 1) ∧
    deactivate (dbIns dbK "K" "A" 0) "K" "A" = .ok dbK ∧
    activate 7 "KID" dbK "K" "B" 0 =
      .ok (sign_token 7 (payloadOf licK 0 "KID"), dbIns dbK "K" "B" 0) ∧
    deactivate dbK "K" "B" = .error .notFound :=
  claim_C4 7 "KID" dbK licK "A" "B" 0 rfl rfl rfl rfl rfl (by decide)

end TKT
